import Mathlib

/-!
Shallow embedding of the shelf_backend library-management service
(FastAPI + SQLAlchemy), covering the circulation engine
(`app/main.py`: borrow_book, return_book, return_book_quick), the
reservation manager (`app/routers/reservations.py`) and the instance
registry (`app/routers/books.py`).

Modelling conventions:
- UUID primary keys become `Nat` ids drawn from a `nextId` counter of
  the database state; timestamps become `Int`; `Numeric` columns
  become `Int` (their values are never interpreted by the endpoints
  under study).
- A SQLAlchemy session + commit becomes explicit state passing on a
  `DB` record of tables (lists of rows, in insertion order).  Each
  endpoint returns `(Except HErr result) × DB`: `HErr` carries the
  HTTP status code and detail of a raised `HTTPException`; an
  unhandled ORM error (e.g. `MultipleResultsFound` from
  `scalar_one_or_none` on a multi-row result) surfaces as a 500.
- `datetime.now(UTC)` is passed in as an explicit `now : Int`
  argument; the random pickup-code digits of `secrets.choice` and the
  outcome of the QR upload to object storage are oracle arguments.
- The snapshot's `db_models.py` lags the routers: the routers use a
  `user_id` column on Transaction, `pickup_code` / `qr_code_url`
  columns on Reservation, and `books.py` calls the instance's unique
  physical tag `book_code` while `db_models.py` / `schemas.py` call it
  `rfid_tag`.  The record types below follow the routers and response
  schemas (spec: a Transaction references "the acting user"; an
  instance carries one "unique physical tag"), so the single tag
  field is named `rfid_tag` and `books.py`'s `book_code` denotes it.
-/

namespace ShelfBackend

inductive BookInstanceStatus where
  | AVAILABLE
  | BORROWED
  | RESERVED
  | DAMAGED
deriving DecidableEq, Repr

inductive TransactionType where
  | BORROW
  | RETURN
  | EXTEND
deriving DecidableEq, Repr

inductive TransactionStatus where
  | PENDING
  | COMPLETED
  | OVERDUE
  | CANCELLED
deriving DecidableEq, Repr

inductive ReservationStatus where
  | PENDING
  | CONFIRMED
  | COMPLETED
  | CANCELLED
  | EXPIRED
deriving DecidableEq, Repr

structure Book where
  id : Nat
  name : String
  author : String
  description : Option String
  cover_image_url : Option String
  genre : Option String
deriving DecidableEq, Repr

structure Shelf where
  id : Nat
  name : String
  capacity : Int
  latitude : Option Int
  longitude : Option Int
  status_active : Bool
deriving DecidableEq, Repr

structure BookInstance where
  id : Nat
  book_id : Nat
  shelf_id : Nat
  shelf_pos : Int
  rfid_tag : String
  status : BookInstanceStatus
deriving DecidableEq, Repr

structure Transaction where
  id : Nat
  user_id : Nat
  shelf_id : Nat
  book_instance_id : Nat
  type : TransactionType
  status : TransactionStatus
  date : Int
deriving DecidableEq, Repr

structure Reservation where
  id : Nat
  user_id : Nat
  book_instance_id : Nat
  status : ReservationStatus
  exp_date : Int
  pickup_code : String
  qr_code_url : Option String
deriving DecidableEq, Repr

/-- An `HTTPException` as raised by the endpoints: HTTP status code and
detail message.  A 500 stands for an unhandled server-side error. -/
structure HErr where
  code : Nat
  detail : String
deriving DecidableEq, Repr

/-- The persistent store: one list per table, rows in insertion order,
plus a counter supplying fresh primary keys. -/
structure DB where
  books : List Book
  shelves : List Shelf
  instances : List BookInstance
  transactions : List Transaction
  reservations : List Reservation
  nextId : Nat
deriving DecidableEq, Repr

def emptyDB : DB := ⟨[], [], [], [], [], 0⟩

/-- The table row with primary key `k` under key projection `key`
(`session.get(Model, k)`, also a `select ... where pk ==` followed by
`scalar_one_or_none`, since keys are unique). -/
def getBy (key : α → Nat) (k : Nat) (l : List α) : Option α :=
  l.find? fun x => key x == k

/-- Row update by primary key: the endpoints mutate the attributes of a
row object they already loaded; on the table this rewrites the row
with that primary key. -/
def updBy (key : α → Nat) (k : Nat) (f : α → α) (l : List α) : List α :=
  l.map fun x => if key x = k then f x else x

/-- Row deletion by primary key (`session.delete(row)`). -/
def delBy (key : α → Nat) (k : Nat) (l : List α) : List α :=
  l.filter fun x => decide (key x ≠ k)

/-- SQLAlchemy `Result.scalar_one_or_none()`: `none` on an empty
result, the row on a singleton result, and `MultipleResultsFound` —
surfaced by FastAPI as a 500 — on anything larger. -/
def scalarOneOrNone (l : List α) : Except HErr (Option α) :=
  match l with
  | [] => .ok none
  | [x] => .ok (some x)
  | _ :: _ :: _ => .error ⟨500, "Internal Server Error"⟩

/-- Sorting step for `order_by(desc(Transaction.date))`. -/
def insertByDateDesc (t : Transaction) : List Transaction → List Transaction
  | [] => [t]
  | u :: us => if u.date ≤ t.date then t :: u :: us else u :: insertByDateDesc t us

/-- Result rows of `order_by(desc(Transaction.date))`. -/
def orderByDateDesc : List Transaction → List Transaction
  | [] => []
  | t :: ts => insertByDateDesc t (orderByDateDesc ts)

/-- Query of `borrow_book`: reservations on instance `iid` with status
`PENDING` belonging to `uid`. -/
def userPendingRes (db : DB) (iid uid : Nat) : List Reservation :=
  db.reservations.filter fun r =>
    r.book_instance_id == iid && decide (r.status = .PENDING) && r.user_id == uid

/-- Query of `return_book` / `return_book_quick`: transactions on
instance `iid` with `type=BORROW` and `status=PENDING`. -/
def pendingBorrowsOf (db : DB) (iid : Nat) : List Transaction :=
  db.transactions.filter fun t =>
    t.book_instance_id == iid && decide (t.type = .BORROW) && decide (t.status = .PENDING)

/-- Query of `pickup_reservation`: reservations carrying `code` with
status `PENDING`. -/
def pendingWithCode (db : DB) (code : String) : List Reservation :=
  db.reservations.filter fun r =>
    r.pickup_code == code && decide (r.status = .PENDING)

/-- Query of `borrow_book` / `return_book`: the instance carrying a
physical tag (`rfid_tag` unique). -/
def instByTag (db : DB) (tag : String) : Option BookInstance :=
  db.instances.find? fun i => i.rfid_tag == tag

/-- Number of `PENDING` reservations referencing instance `iid`. -/
def pendingCount (rs : List Reservation) (iid : Nat) : Nat :=
  rs.countP fun r => r.book_instance_id == iid && decide (r.status = .PENDING)

/-- Pickup-code generation
`''.join(secrets.choice(string.digits) for _ in range(6))`, with the
six draws of the cryptographically secure generator supplied as an
oracle `digits`. -/
def genPickupCode (digits : Fin 6 → Fin 10) : String :=
  String.mk ((List.finRange 6).map fun k => Char.ofNat (48 + (digits k).val))

/-- Payload of `POST /reservations` (schema `ReservationCreate`; its
`status` member is ignored by the endpoint, which always writes
`PENDING`). -/
structure ReservationCreate where
  status : ReservationStatus
  exp_date : Int
  user_id : Nat
  book_instance_id : Nat
deriving DecidableEq, Repr

/-- Payload of `PUT /reservations/{id}` (schema `ReservationUpdate`);
`none` is an unset member, dropped by `model_dump(exclude_unset)`. -/
structure ReservationUpdate where
  status : Option ReservationStatus
  exp_date : Option Int
deriving DecidableEq, Repr

def applyReservationUpdate (u : ReservationUpdate) (r : Reservation) : Reservation :=
  { r with status := u.status.getD r.status, exp_date := u.exp_date.getD r.exp_date }

/-- Payload of `POST /book-instances` (schema `BookInstanceCreate`). -/
structure BookInstanceCreate where
  status : BookInstanceStatus
  shelf_pos : Int
  rfid_tag : String
  book_id : Nat
  shelf_id : Nat
deriving DecidableEq, Repr

/-- Payload of `PUT /book-instances/{id}` (schema
`BookInstanceUpdate`); `none` is an unset member. -/
structure BookInstanceUpdate where
  status : Option BookInstanceStatus
  shelf_pos : Option Int
  rfid_tag : Option String
  book_id : Option Nat
  shelf_id : Option Nat
deriving DecidableEq, Repr

def applyBookInstanceUpdate (u : BookInstanceUpdate) (i : BookInstance) : BookInstance :=
  { i with
    status := u.status.getD i.status
    shelf_pos := u.shelf_pos.getD i.shelf_pos
    rfid_tag := u.rfid_tag.getD i.rfid_tag
    book_id := u.book_id.getD i.book_id
    shelf_id := u.shelf_id.getD i.shelf_id }

/-- Endpoint `POST /books` (`create_book` in `routers/books.py`). -/
def create_book (db : DB) (name author : String) (description cover genre : Option String) :
    Book × DB :=
  let book : Book := ⟨db.nextId, name, author, description, cover, genre⟩
  (book, { db with books := db.books ++ [book], nextId := db.nextId + 1 })

/-- Endpoint `POST /shelves` (`create_shelf` in `routers/shelves.py`). -/
def create_shelf (db : DB) (name : String) (capacity : Int) (lat lon : Option Int) :
    Shelf × DB :=
  let shelf : Shelf := ⟨db.nextId, name, capacity, lat, lon, true⟩
  (shelf, { db with shelves := db.shelves ++ [shelf], nextId := db.nextId + 1 })

/-- Endpoint `POST /book-instances` (`create_book_instance` in
`routers/books.py`): book and shelf must exist, the physical tag must
be globally fresh; the new row takes the status given in the payload. -/
def create_book_instance (db : DB) (d : BookInstanceCreate) :
    Except HErr BookInstance × DB :=
  match getBy Book.id d.book_id db.books with
  | none => (.error ⟨404, "Book not found"⟩, db)
  | some _ =>
    match getBy Shelf.id d.shelf_id db.shelves with
    | none => (.error ⟨404, "Shelf not found"⟩, db)
    | some _ =>
      match scalarOneOrNone (db.instances.filter fun i => i.rfid_tag == d.rfid_tag) with
      | .error e => (.error e, db)
      | .ok (some _) => (.error ⟨400, "book code already registered"⟩, db)
      | .ok none =>
        let inst : BookInstance :=
          ⟨db.nextId, d.book_id, d.shelf_id, d.shelf_pos, d.rfid_tag, d.status⟩
        (.ok inst, { db with instances := db.instances ++ [inst], nextId := db.nextId + 1 })

/-- Endpoint `PUT /book-instances/{id}` (`update_book_instance` in
`routers/books.py`): when the payload sets a tag different from the
row's current one, the tag must not be registered on any row. -/
def update_book_instance (db : DB) (instance_id : Nat) (u : BookInstanceUpdate) :
    Except HErr BookInstance × DB :=
  match getBy BookInstance.id instance_id db.instances with
  | none => (.error ⟨404, "Book instance not found"⟩, db)
  | some inst =>
    let tagCheck : Except HErr Unit :=
      match u.rfid_tag with
      | some t =>
        if t ≠ inst.rfid_tag then
          match scalarOneOrNone (db.instances.filter fun i => i.rfid_tag == t) with
          | .error e => .error e
          | .ok (some _) => .error ⟨400, "book code already registered"⟩
          | .ok none => .ok ()
        else .ok ()
      | none => .ok ()
    match tagCheck with
    | .error e => (.error e, db)
    | .ok _ =>
      (.ok (applyBookInstanceUpdate u inst),
       { db with instances := updBy BookInstance.id instance_id (applyBookInstanceUpdate u) db.instances })

/-- Endpoint `GET /books/{book_id}/instances` (`get_book_instances` in
`routers/books.py`): the instances of the book whose status is
`AVAILABLE`. -/
def get_book_instances (db : DB) (book_id : Nat) : List BookInstance :=
  db.instances.filter fun i => i.book_id == book_id && decide (i.status = .AVAILABLE)

/-- Endpoint `POST /reservations` (`create_reservation` in
`routers/reservations.py`).  `digits` supplies the six secure random
draws for the pickup code; `qrUpload` is the outcome of the
best-effort QR render + S3 upload (`some url` on success, `none` when
`generate_and_upload_qr` raised, in which case the failure is only
logged). -/
def create_reservation (db : DB) (d : ReservationCreate) (digits : Fin 6 → Fin 10)
    (qrUpload : Option String) : Except HErr Reservation × DB :=
  match getBy BookInstance.id d.book_instance_id db.instances with
  | none => (.error ⟨404, "Book instance not found"⟩, db)
  | some inst =>
    if inst.status ≠ .AVAILABLE then
      (.error ⟨400, "Book instance not available"⟩, db)
    else
      let pickup_code := genPickupCode digits
      let reservation : Reservation :=
        ⟨db.nextId, d.user_id, d.book_instance_id, .PENDING, d.exp_date, pickup_code, none⟩
      let db1 : DB :=
        { db with
          reservations := db.reservations ++ [reservation]
          instances := updBy BookInstance.id inst.id (fun i => { i with status := .RESERVED }) db.instances
          nextId := db.nextId + 1 }
      match qrUpload with
      | none => (.ok reservation, db1)
      | some url =>
        (.ok { reservation with qr_code_url := some url },
         { db1 with
           reservations := updBy Reservation.id reservation.id
             (fun r => { r with qr_code_url := some url }) db1.reservations })

/-- Endpoint `DELETE /reservations/{id}` (`delete_reservation` in
`routers/reservations.py`): always deletes the row; reverts the
instance to `AVAILABLE` only when the reservation is `PENDING` and the
instance is currently `RESERVED`. -/
def delete_reservation (db : DB) (reservation_id : Nat) : Except HErr Unit × DB :=
  match getBy Reservation.id reservation_id db.reservations with
  | none => (.error ⟨404, "Reservation not found"⟩, db)
  | some reservation =>
    let instances' :=
      if reservation.status = .PENDING then
        match getBy BookInstance.id reservation.book_instance_id db.instances with
        | some inst =>
          if inst.status = .RESERVED then
            updBy BookInstance.id inst.id (fun i => { i with status := .AVAILABLE }) db.instances
          else db.instances
        | none => db.instances
      else db.instances
    (.ok (),
     { db with
       instances := instances'
       reservations := delBy Reservation.id reservation_id db.reservations })

/-- Endpoint `PUT /reservations/{id}` (`update_reservation` in
`routers/reservations.py`): overwrites the set members of the payload,
with no state checks. -/
def update_reservation (db : DB) (reservation_id : Nat) (u : ReservationUpdate) :
    Except HErr Reservation × DB :=
  match getBy Reservation.id reservation_id db.reservations with
  | none => (.error ⟨404, "Reservation not found"⟩, db)
  | some r =>
    (.ok (applyReservationUpdate u r),
     { db with reservations := updBy Reservation.id reservation_id (applyReservationUpdate u) db.reservations })

/-- Endpoint `POST /reservations/pickup` (`pickup_reservation` in
`routers/reservations.py`).  Looks up the first `PENDING` reservation
carrying the code; an expired one is flipped to `EXPIRED` — a change
that commits even though the request fails with 400. -/
def pickup_reservation (db : DB) (pickup_code : String) (now : Int) :
    Except HErr Transaction × DB :=
  match (pendingWithCode db pickup_code).head? with
  | none => (.error ⟨404, "Invalid or expired pickup code"⟩, db)
  | some reservation =>
    if reservation.exp_date < now then
      (.error ⟨400, "Reservation expired"⟩,
       { db with
         reservations := updBy Reservation.id reservation.id
           (fun r => { r with status := .EXPIRED }) db.reservations })
    else
      match getBy BookInstance.id reservation.book_instance_id db.instances with
      | none => (.error ⟨404, "Book instance not found"⟩, db)
      | some inst =>
        let transaction : Transaction :=
          ⟨db.nextId, reservation.user_id, inst.shelf_id, reservation.book_instance_id,
           .BORROW, .PENDING, now⟩
        (.ok transaction,
         { db with
           reservations := updBy Reservation.id reservation.id
             (fun r => { r with status := .COMPLETED }) db.reservations
           instances := updBy BookInstance.id inst.id
             (fun i => { i with status := .BORROWED }) db.instances
           transactions := db.transactions ++ [transaction]
           nextId := db.nextId + 1 })

/-- Endpoint `POST /borrow` (`borrow_book` in `app/main.py`). -/
def borrow_book (db : DB) (user_id : Nat) (rfid_tag : String) (now : Int) :
    Except HErr Transaction × DB :=
  match instByTag db rfid_tag with
  | none => (.error ⟨404, "Book instance not found"⟩, db)
  | some inst =>
    if inst.status ≠ .AVAILABLE ∧ inst.status ≠ .RESERVED then
      (.error ⟨400, "Book is not available"⟩, db)
    else
      let resStep : Except HErr (List Reservation) :=
        if inst.status = .RESERVED then
          match scalarOneOrNone (userPendingRes db inst.id user_id) with
          | .error e => .error e
          | .ok none => .error ⟨400, "Book is reserved by another user"⟩
          | .ok (some res) =>
            .ok (updBy Reservation.id res.id (fun r => { r with status := .COMPLETED }) db.reservations)
        else .ok db.reservations
      match resStep with
      | .error e => (.error e, db)
      | .ok rs' =>
        let transaction : Transaction :=
          ⟨db.nextId, user_id, inst.shelf_id, inst.id, .BORROW, .PENDING, now⟩
        (.ok transaction,
         { db with
           reservations := rs'
           instances := updBy BookInstance.id inst.id
             (fun i => { i with status := .BORROWED }) db.instances
           transactions := db.transactions ++ [transaction]
           nextId := db.nextId + 1 })

/-- Endpoint `POST /return` (`return_book` in `app/main.py`): the open
borrow is looked up with `order_by(desc(date))` + `scalar_one_or_none`;
the instance moves to the given destination shelf. -/
def return_book (db : DB) (rfid_tag : String) (shelf_id : Nat) (now : Int) :
    Except HErr Transaction × DB :=
  match instByTag db rfid_tag with
  | none => (.error ⟨404, "Book instance not found"⟩, db)
  | some inst =>
    match scalarOneOrNone (orderByDateDesc (pendingBorrowsOf db inst.id)) with
    | .error e => (.error e, db)
    | .ok none => (.error ⟨400, "Book was not borrowed"⟩, db)
    | .ok (some last_borrow) =>
      let return_tx : Transaction :=
        ⟨db.nextId, last_borrow.user_id, shelf_id, inst.id, .RETURN, .COMPLETED, now⟩
      (.ok return_tx,
       { db with
         transactions :=
           updBy Transaction.id last_borrow.id (fun t => { t with status := .COMPLETED })
             db.transactions ++ [return_tx]
         instances := updBy BookInstance.id inst.id
           (fun i => { i with status := .AVAILABLE, shelf_id := shelf_id }) db.instances
         nextId := db.nextId + 1 })

/-- Endpoint `POST /return-quick` (`return_book_quick` in
`app/main.py`): same as `return_book` but the return transaction
reuses the instance's recorded shelf and the instance's `shelf_id` is
left untouched. -/
def return_book_quick (db : DB) (rfid_tag : String) (now : Int) :
    Except HErr Transaction × DB :=
  match instByTag db rfid_tag with
  | none => (.error ⟨404, "Book instance not found"⟩, db)
  | some inst =>
    match scalarOneOrNone (orderByDateDesc (pendingBorrowsOf db inst.id)) with
    | .error e => (.error e, db)
    | .ok none => (.error ⟨400, "Book was not borrowed"⟩, db)
    | .ok (some last_borrow) =>
      let return_tx : Transaction :=
        ⟨db.nextId, last_borrow.user_id, inst.shelf_id, inst.id, .RETURN, .COMPLETED, now⟩
      (.ok return_tx,
       { db with
         transactions :=
           updBy Transaction.id last_borrow.id (fun t => { t with status := .COMPLETED })
             db.transactions ++ [return_tx]
         instances := updBy BookInstance.id inst.id
           (fun i => { i with status := .AVAILABLE }) db.instances
         nextId := db.nextId + 1 })

/-- Code of the HTTP response of a failed call, `none` on success. -/
def errCode : Except HErr α → Option Nat
  | .error e => some e.code
  | .ok _ => none

/-- Well-formedness guaranteed by the store: primary keys are unique
and below the fresh-key counter. -/
def WF (db : DB) : Prop :=
  (db.instances.map BookInstance.id).Nodup ∧
  (db.reservations.map Reservation.id).Nodup ∧
  (∀ i ∈ db.instances, i.id < db.nextId) ∧
  (∀ r ∈ db.reservations, r.id < db.nextId)

/-- No instance carries two concurrent `PENDING` reservations (spec §3:
"at most one pending reservation concurrently"). -/
def AtMostOnePending (db : DB) : Prop :=
  ∀ i ∈ db.instances, pendingCount db.reservations i.id ≤ 1

/-- The claimed biconditional (spec §8): an instance is `RESERVED` iff
exactly one `PENDING` reservation references it. -/
def SpecReservedInv (db : DB) : Prop :=
  ∀ i ∈ db.instances, (i.status = .RESERVED ↔ pendingCount db.reservations i.id = 1)

/-- Inductive strengthening of `SpecReservedInv` used for the
preservation proof. -/
def Inv (db : DB) : Prop := WF db ∧ AtMostOnePending db ∧ SpecReservedInv db

instance (db : DB) : Decidable (WF db) := by
  unfold WF; infer_instance

instance (db : DB) : Decidable (AtMostOnePending db) := by
  unfold AtMostOnePending; infer_instance

instance (db : DB) : Decidable (SpecReservedInv db) := by
  unfold SpecReservedInv; infer_instance

instance (db : DB) : Decidable (Inv db) := by
  unfold Inv; infer_instance

/-! Concrete fixture states, each built by running the endpoints from
the empty store (so every one of them is reachable). -/

/-- Store holding one book (id 0). -/
def dbBook : DB := (create_book emptyDB "Dune" "Herbert" none none none).2

/-- Store holding one book (id 0) and one shelf (id 1). -/
def dbShelf : DB := (create_shelf dbBook "S1" 10 none none).2

def fixInstCreate : BookInstanceCreate := ⟨.AVAILABLE, 0, "T1", 0, 1⟩

/-- Store holding book 0, shelf 1 and an `AVAILABLE` instance (id 2,
tag `T1`). -/
def dbInst : DB := (create_book_instance dbShelf fixInstCreate).2

/-- Oracle drawing the digit 1 six times (pickup code `111111`). -/
def oneDigit : Fin 6 → Fin 10 := fun _ => 1

/-- Oracle drawing the digit 2 six times (pickup code `222222`). -/
def twoDigit : Fin 6 → Fin 10 := fun _ => 2

def fixResCreate : ReservationCreate := ⟨.PENDING, 100, 7, 2⟩

/-- Store where user 7 holds a `PENDING` reservation (id 3, code
`111111`, `exp_date` 100) on instance 2, which is `RESERVED`. -/
def dbRes : DB := (create_reservation dbInst fixResCreate oneDigit none).2

/-- Store where instance 2 is `BORROWED` by user 7 (open borrow
transaction id 3, date 5). -/
def dbBorrowed : DB := (borrow_book dbInst 7 "T1" 5).2

/-- Reachable store with two `PENDING` borrow transactions on instance
2: borrow, administrative status reset to `AVAILABLE` through
`PUT /book-instances/2`, borrow again. -/
def dbTwoBorrow : DB :=
  let db2 := (update_book_instance dbBorrowed 2 ⟨some .AVAILABLE, none, none, none, none⟩).2
  (borrow_book db2 8 "T1" 9).2

/-- Reachable store where instance 2 is `RESERVED` and two `PENDING`
reservations of user 7 reference it: reserve, borrow (completing the
reservation), administrative reset to `AVAILABLE`, reserve again, then
`PUT /reservations/3` setting the completed reservation back to
`PENDING`. -/
def dbDupRes : DB :=
  let db2 := (borrow_book dbRes 7 "T1" 5).2
  let db3 := (update_book_instance db2 2 ⟨some .AVAILABLE, none, none, none, none⟩).2
  let db4 := (create_reservation db3 ⟨.PENDING, 200, 7, 2⟩ twoDigit none).2
  (update_reservation db4 3 ⟨some .PENDING, none⟩).2

/-- Reachable store with two `PENDING` reservations that drew the same
pickup code `111111` (the 6-digit codes are random and not checked for
collisions), both with `exp_date` 10. -/
def dbColl : DB :=
  let db1 := (create_book_instance dbInst ⟨.AVAILABLE, 1, "T2", 0, 1⟩).2
  let db2 := (create_reservation db1 ⟨.PENDING, 10, 7, 2⟩ oneDigit none).2
  (create_reservation db2 ⟨.PENDING, 10, 8, 3⟩ oneDigit none).2

/-- State after the first expired pickup attempt on `dbColl`. -/
def dbCollE : DB := (pickup_reservation dbColl "111111" 20).2

/-- Store where user 7 holds a `PENDING` reservation (id 3, code
`111111`) on instance 2 whose `exp_date` 10 is already past. -/
def dbResPast : DB := (create_reservation dbInst ⟨.PENDING, 10, 7, 2⟩ oneDigit none).2

/-! Generic lemmas about the table helpers. -/

theorem updBy_eq_of_forall_ne {key : α → Nat} {k : Nat} {f : α → α} :
    ∀ {l : List α}, (∀ x ∈ l, key x ≠ k) → updBy key k f l = l
  | [], _ => rfl
  | a :: l, h => by
    have ha : key a ≠ k := h a (List.mem_cons_self a l)
    have ih := updBy_eq_of_forall_ne (f := f) (l := l)
      (fun x hx => h x (List.mem_cons_of_mem a hx))
    simp only [updBy, List.map_cons] at ih ⊢
    rw [if_neg ha, ih]

theorem delBy_eq_of_forall_ne {key : α → Nat} {k : Nat} {l : List α}
    (h : ∀ x ∈ l, key x ≠ k) : delBy key k l = l :=
  List.filter_eq_self.mpr fun x hx => by simpa using h x hx

theorem countP_updBy_mem (key : α → Nat) (k : Nat) (f : α → α) (p : α → Bool) :
    ∀ {l : List α}, (l.map key).Nodup → ∀ {x}, x ∈ l → key x = k →
      (updBy key k f l).countP p + (if p x then 1 else 0) =
        l.countP p + (if p (f x) then 1 else 0)
  | [], _, _, hx, _ => absurd hx (List.not_mem_nil _)
  | a :: l, hnd, x, hx, hk => by
    rw [List.map_cons, List.nodup_cons] at hnd
    rcases List.mem_cons.mp hx with rfl | hx'
    · have htail : ∀ y ∈ l, key y ≠ k := fun y hy hc => by
        exact hnd.1 (hk ▸ hc ▸ List.mem_map_of_mem key hy)
      simp only [updBy, List.map_cons, if_pos hk]
      rw [show List.map (fun y => if key y = k then f y else y) l = updBy key k f l from rfl,
        updBy_eq_of_forall_ne htail, List.countP_cons, List.countP_cons]
      rcases hpa : p x <;> rcases hpf : p (f x) <;> simp [hpa, hpf]
    · have ha : key a ≠ k := fun hc => by
        exact hnd.1 (hc ▸ hk ▸ List.mem_map_of_mem key hx')
      have ih := countP_updBy_mem key k f p hnd.2 hx' hk
      simp only [updBy, List.map_cons, if_neg ha]
      rw [show List.map (fun y => if key y = k then f y else y) l = updBy key k f l from rfl,
        List.countP_cons, List.countP_cons]
      omega

theorem countP_delBy_mem (key : α → Nat) (k : Nat) (p : α → Bool) :
    ∀ {l : List α}, (l.map key).Nodup → ∀ {x}, x ∈ l → key x = k →
      (delBy key k l).countP p + (if p x then 1 else 0) = l.countP p
  | [], _, _, hx, _ => absurd hx (List.not_mem_nil _)
  | a :: l, hnd, x, hx, hk => by
    rw [List.map_cons, List.nodup_cons] at hnd
    rcases List.mem_cons.mp hx with rfl | hx'
    · have htail : ∀ y ∈ l, key y ≠ k := fun y hy hc => by
        exact hnd.1 (hk ▸ hc ▸ List.mem_map_of_mem key hy)
      simp only [delBy, List.filter_cons, decide_eq_true_eq]
      rw [if_neg (by simpa using hk)]
      rw [show List.filter (fun y => decide (key y ≠ k)) l = delBy key k l from rfl,
        delBy_eq_of_forall_ne htail, List.countP_cons]
    · have ha : key a ≠ k := fun hc => by
        exact hnd.1 (hc ▸ hk ▸ List.mem_map_of_mem key hx')
      have ih := countP_delBy_mem key k p hnd.2 hx' hk
      simp only [delBy, List.filter_cons, decide_eq_true_eq]
      rw [if_pos (by simpa using ha)]
      rw [show List.filter (fun y => decide (key y ≠ k)) l = delBy key k l from rfl,
        List.countP_cons, List.countP_cons]
      omega

theorem mem_updBy {key : α → Nat} {k : Nat} {f : α → α} {l : List α} {y : α}
    (hy : y ∈ updBy key k f l) :
    ∃ x, x ∈ l ∧ ((key x = k ∧ y = f x) ∨ (key x ≠ k ∧ y = x)) := by
  simp only [updBy, List.mem_map] at hy
  obtain ⟨x, hx, hxy⟩ := hy
  by_cases h : key x = k
  · exact ⟨x, hx, .inl ⟨h, by rw [← hxy, if_pos h]⟩⟩
  · exact ⟨x, hx, .inr ⟨h, by rw [← hxy, if_neg h]⟩⟩

theorem mem_updBy_of_mem (key : α → Nat) (k : Nat) (f : α → α) {l : List α} {x : α}
    (hx : x ∈ l) : (if key x = k then f x else x) ∈ updBy key k f l :=
  List.mem_map_of_mem _ hx

theorem map_key_updBy (key : α → Nat) (k : Nat) (f : α → α) (l : List α)
    (hf : ∀ x, key (f x) = key x) : (updBy key k f l).map key = l.map key := by
  simp only [updBy, List.map_map]
  exact List.map_congr_left fun x _ => by by_cases h : key x = k <;> simp [h, hf]

theorem getBy_mem {key : α → Nat} {k : Nat} {l : List α} {x : α}
    (h : getBy key k l = some x) : x ∈ l ∧ key x = k :=
  ⟨List.mem_of_find?_eq_some h, by simpa using List.find?_some h⟩

theorem getBy_none {key : α → Nat} {k : Nat} {l : List α}
    (h : getBy key k l = none) : ∀ x ∈ l, key x ≠ k := by
  simp only [getBy, List.find?_eq_none, beq_iff_eq] at h
  exact h

theorem getBy_delBy (key : α → Nat) (k : Nat) (l : List α) :
    getBy key k (delBy key k l) = none := by
  simp only [getBy, delBy, List.find?_eq_none, beq_iff_eq]
  intro x hx
  simpa using (List.mem_filter.mp hx).2

theorem scalarOneOrNone_ok_some {l : List α} {x : α}
    (h : scalarOneOrNone l = .ok (some x)) : l = [x] := by
  match l with
  | [] => simp [scalarOneOrNone] at h
  | [y] => simp only [scalarOneOrNone, Except.ok.injEq, Option.some.injEq] at h; rw [h]
  | a :: b :: t => simp [scalarOneOrNone] at h

theorem scalarOneOrNone_ok_none {l : List α}
    (h : scalarOneOrNone l = .ok none) : l = [] := by
  match l with
  | [] => rfl
  | [y] => simp [scalarOneOrNone] at h
  | a :: b :: t => simp [scalarOneOrNone] at h

theorem filter_singleton_mem {p : α → Bool} {l : List α} {x : α}
    (h : l.filter p = [x]) : x ∈ l ∧ p x := by
  have hx : x ∈ l.filter p := by rw [h]; exact List.mem_singleton_self x
  exact ⟨(List.mem_filter.mp hx).1, (List.mem_filter.mp hx).2⟩

theorem eq_of_mem_filter_singleton {p : α → Bool} {l : List α} {x : α}
    (h : l.filter p = [x]) {y : α} (hy : y ∈ l) (hp : p y) : y = x := by
  have : y ∈ l.filter p := List.mem_filter.mpr ⟨hy, hp⟩
  rw [h] at this
  exact List.mem_singleton.mp this

theorem genPickupCode_length (digits : Fin 6 → Fin 10) :
    (genPickupCode digits).length = 6 := by
  simp [genPickupCode]

theorem genPickupCode_isDigit (digits : Fin 6 → Fin 10) :
    ∀ c ∈ (genPickupCode digits).toList, c.isDigit := by
  have key : ∀ n : Fin 10, (Char.ofNat (48 + n.val)).isDigit := by decide
  intro c hc
  simp only [genPickupCode, String.toList, List.mem_map] at hc
  obtain ⟨k, _, rfl⟩ := hc
  exact key (digits k)

theorem length_insertByDateDesc (t : Transaction) :
    ∀ l : List Transaction, (insertByDateDesc t l).length = l.length + 1
  | [] => rfl
  | u :: us => by
    simp only [insertByDateDesc]
    split
    · simp
    · simp [length_insertByDateDesc t us]

theorem length_orderByDateDesc :
    ∀ l : List Transaction, (orderByDateDesc l).length = l.length
  | [] => rfl
  | t :: ts => by
    simp [orderByDateDesc, length_insertByDateDesc, length_orderByDateDesc ts]

theorem orderByDateDesc_singleton (t : Transaction) : orderByDateDesc [t] = [t] := rfl

theorem scalarOneOrNone_error_of_two {l : List α} (h : 2 ≤ l.length) :
    scalarOneOrNone l = .error ⟨500, "Internal Server Error"⟩ := by
  match l with
  | [] => simp at h
  | [x] => simp at h
  | a :: b :: t => rfl

/-- C10: for every book id, `GET /books/{id}/instances` returns exactly
the instances of that book whose status is `AVAILABLE` — instances
with status `BORROWED`, `RESERVED` or `DAMAGED` are silently excluded
— and a book with no available instances yields the empty list rather
than an error. -/
theorem get_book_instances_exactly_available (db : DB) (book_id : Nat) :
    (∀ i : BookInstance, i ∈ get_book_instances db book_id ↔
        i ∈ db.instances ∧ i.book_id = book_id ∧ i.status = .AVAILABLE) ∧
    ((∀ i ∈ db.instances, i.book_id = book_id → i.status ≠ .AVAILABLE) →
      get_book_instances db book_id = []) := by
  constructor
  · intro i
    simp [get_book_instances, List.mem_filter, and_assoc]
  · intro h
    refine List.filter_eq_nil_iff.mpr fun i hi => ?_
    simp only [Bool.and_eq_true, beq_iff_eq, decide_eq_true_eq, not_and]
    exact h i hi

/-- C10 witness: on the reachable store `dbInst`, the available
instance of book 0 is listed. -/
theorem get_book_instances_exactly_available_witness :
    (⟨2, 0, 1, 0, "T1", .AVAILABLE⟩ : BookInstance) ∈ get_book_instances dbInst 0 :=
  ((get_book_instances_exactly_available dbInst 0).1 _).mpr (by decide)

/-- C6: `DELETE /reservations/{id}` on an existing reservation deletes
the row unconditionally, whatever its status; the referenced instance
is reverted to `AVAILABLE` exactly when the reservation was `PENDING`
and the instance `RESERVED`, and the instance table is untouched in
every other case. -/
theorem delete_reservation_spec (db : DB) (rid : Nat) (r : Reservation)
    (hr : getBy Reservation.id rid db.reservations = some r) :
    (delete_reservation db rid).1 = .ok () ∧
    (delete_reservation db rid).2.reservations = delBy Reservation.id rid db.reservations ∧
    getBy Reservation.id rid (delete_reservation db rid).2.reservations = none ∧
    (∀ i, r.status = .PENDING →
      getBy BookInstance.id r.book_instance_id db.instances = some i →
      i.status = .RESERVED →
      (delete_reservation db rid).2.instances =
        updBy BookInstance.id i.id (fun x => { x with status := .AVAILABLE }) db.instances) ∧
    (r.status ≠ .PENDING → (delete_reservation db rid).2.instances = db.instances) ∧
    (∀ i, getBy BookInstance.id r.book_instance_id db.instances = some i →
      i.status ≠ .RESERVED → (delete_reservation db rid).2.instances = db.instances) ∧
    (getBy BookInstance.id r.book_instance_id db.instances = none →
      (delete_reservation db rid).2.instances = db.instances) := by
  have hres : (delete_reservation db rid).2.reservations =
      delBy Reservation.id rid db.reservations := by
    simp [delete_reservation, hr]
  refine ⟨by simp [delete_reservation, hr], hres, ?_, ?_, ?_, ?_, ?_⟩
  · rw [hres]; exact getBy_delBy _ _ _
  · intro i hp hi his
    simp [delete_reservation, hr, hp, hi, his]
  · intro hp
    simp [delete_reservation, hr, hp]
  · intro i hi his
    by_cases hp : r.status = .PENDING <;> simp [delete_reservation, hr, hp, hi, his]
  · intro hi
    by_cases hp : r.status = .PENDING <;> simp [delete_reservation, hr, hp, hi]

/-- C6 witness: deleting the pending reservation 3 of the reachable
store `dbRes` reverts instance 2 from `RESERVED` to `AVAILABLE` and
removes the row. -/
theorem delete_reservation_spec_witness :
    (delete_reservation dbRes 3).1 = .ok () ∧
    (delete_reservation dbRes 3).2.reservations = delBy Reservation.id 3 dbRes.reservations ∧
    (delete_reservation dbRes 3).2.instances =
      updBy BookInstance.id 2 (fun x => { x with status := .AVAILABLE }) dbRes.instances := by
  obtain ⟨h1, h2, -, h4, -⟩ :=
    delete_reservation_spec dbRes 3 ⟨3, 7, 2, .PENDING, 100, "111111", none⟩ (by decide)
  exact ⟨h1, h2, h4 ⟨2, 0, 1, 0, "T1", .RESERVED⟩ rfl (by decide) rfl⟩

/-- C5: `POST /reservations` fails with 404 when the instance does not
exist and with 400 when it is not `AVAILABLE`; otherwise it creates a
`PENDING` reservation carrying a 6-digit numeric pickup code (the six
secure random draws are the oracle `digits`), flips the instance to
`RESERVED` and commits; the QR render/upload is best-effort — on
failure (`qrUpload = none`) the committed reservation row survives
with no image reference, on success the row carries the URL. -/
theorem create_reservation_spec (db : DB) (d : ReservationCreate)
    (digits : Fin 6 → Fin 10) (qrUpload : Option String) :
    (getBy BookInstance.id d.book_instance_id db.instances = none →
      create_reservation db d digits qrUpload = (.error ⟨404, "Book instance not found"⟩, db)) ∧
    (∀ inst, getBy BookInstance.id d.book_instance_id db.instances = some inst →
      inst.status ≠ .AVAILABLE →
      create_reservation db d digits qrUpload = (.error ⟨400, "Book instance not available"⟩, db)) ∧
    (∀ inst, getBy BookInstance.id d.book_instance_id db.instances = some inst →
      inst.status = .AVAILABLE →
      ∃ res, (create_reservation db d digits qrUpload).1 = .ok res ∧
        res.status = .PENDING ∧ res.user_id = d.user_id ∧
        res.book_instance_id = d.book_instance_id ∧ res.exp_date = d.exp_date ∧
        res.pickup_code = genPickupCode digits ∧ res.qr_code_url = qrUpload ∧
        res.pickup_code.length = 6 ∧ (∀ c ∈ res.pickup_code.toList, c.isDigit) ∧
        (create_reservation db d digits qrUpload).2.instances =
          updBy BookInstance.id inst.id (fun i => { i with status := .RESERVED }) db.instances ∧
        (∃ row ∈ (create_reservation db d digits qrUpload).2.reservations,
          row.id = res.id ∧ row.status = .PENDING ∧
          row.pickup_code = genPickupCode digits ∧ row.qr_code_url = qrUpload)) := by
  refine ⟨?_, ?_, ?_⟩
  · intro h
    simp [create_reservation, h]
  · intro inst hi hs
    simp [create_reservation, hi, hs]
  · intro inst hi hs
    rcases qrUpload with - | url
    · refine ⟨⟨db.nextId, d.user_id, d.book_instance_id, .PENDING, d.exp_date,
        genPickupCode digits, none⟩, by simp [create_reservation, hi, hs],
        rfl, rfl, rfl, rfl, rfl, rfl,
        genPickupCode_length digits, genPickupCode_isDigit digits, ?_, ?_⟩
      · simp [create_reservation, hi, hs]
      · refine ⟨⟨db.nextId, d.user_id, d.book_instance_id, .PENDING, d.exp_date,
          genPickupCode digits, none⟩, ?_, rfl, rfl, rfl, rfl⟩
        simp [create_reservation, hi, hs]
    · refine ⟨⟨db.nextId, d.user_id, d.book_instance_id, .PENDING, d.exp_date,
        genPickupCode digits, some url⟩, by simp [create_reservation, hi, hs],
        rfl, rfl, rfl, rfl, rfl, rfl,
        genPickupCode_length digits, genPickupCode_isDigit digits, ?_, ?_⟩
      · simp [create_reservation, hi, hs]
      · refine ⟨⟨db.nextId, d.user_id, d.book_instance_id, .PENDING, d.exp_date,
          genPickupCode digits, some url⟩, ?_, rfl, rfl, rfl, rfl⟩
        simp only [create_reservation, hi]
        rw [if_neg (by simp [hs])]
        have hm : (⟨db.nextId, d.user_id, d.book_instance_id, .PENDING, d.exp_date,
            genPickupCode digits, none⟩ : Reservation) ∈
            db.reservations ++ [⟨db.nextId, d.user_id, d.book_instance_id, .PENDING,
              d.exp_date, genPickupCode digits, none⟩] := by
          simp
        have := mem_updBy_of_mem Reservation.id db.nextId
          (fun r => { r with qr_code_url := some url }) hm
        simpa using this

/-- C5 witness: on the reachable store `dbInst` with instance 2
available, a reservation with the upload failing is created, committed
and carries no image reference. -/
theorem create_reservation_spec_witness :
    ∃ res, (create_reservation dbInst fixResCreate oneDigit none).1 = .ok res ∧
      res.status = .PENDING ∧ res.user_id = fixResCreate.user_id ∧
      res.book_instance_id = fixResCreate.book_instance_id ∧
      res.exp_date = fixResCreate.exp_date ∧
      res.pickup_code = genPickupCode oneDigit ∧ res.qr_code_url = none ∧
      res.pickup_code.length = 6 ∧ (∀ c ∈ res.pickup_code.toList, c.isDigit) ∧
      (create_reservation dbInst fixResCreate oneDigit none).2.instances =
        updBy BookInstance.id 2 (fun i => { i with status := .RESERVED }) dbInst.instances ∧
      (∃ row ∈ (create_reservation dbInst fixResCreate oneDigit none).2.reservations,
        row.id = res.id ∧ row.status = .PENDING ∧
        row.pickup_code = genPickupCode oneDigit ∧ row.qr_code_url = none) :=
  (create_reservation_spec dbInst fixResCreate oneDigit none).2.2
    ⟨2, 0, 1, 0, "T1", .AVAILABLE⟩ (by decide) rfl

/-- C9 counterexample: an `InvalidState` failure (borrowing a
`BORROWED` instance) and a `Conflict` failure (registering a duplicate
physical tag) are surfaced with the same response code 400, so the
five error kinds do not receive pairwise distinct response codes. -/
theorem error_codes_not_distinct :
    (borrow_book dbBorrowed 9 "T1" 6).1 = .error ⟨400, "Book is not available"⟩ ∧
    (create_book_instance dbInst fixInstCreate).1 = .error ⟨400, "book code already registered"⟩ ∧
    errCode (borrow_book dbBorrowed 9 "T1" 6).1 =
      errCode (create_book_instance dbInst fixInstCreate).1 :=
  ⟨rfl, rfl, rfl⟩

/-- C9 (amended): every failure is surfaced directly to the caller,
`NotFound` as 404 while `InvalidState`, `Forbidden`, `Expired` and
`Conflict` all map to 400 and are distinguished only by their detail
message; none is retried internally. -/
theorem error_code_taxonomy :
    (borrow_book dbInst 7 "NOPE" 0).1 = .error ⟨404, "Book instance not found"⟩ ∧
    (borrow_book dbBorrowed 9 "T1" 6).1 = .error ⟨400, "Book is not available"⟩ ∧
    (borrow_book dbRes 8 "T1" 6).1 = .error ⟨400, "Book is reserved by another user"⟩ ∧
    (pickup_reservation dbResPast "111111" 20).1 = .error ⟨400, "Reservation expired"⟩ ∧
    (create_book_instance dbInst fixInstCreate).1 =
      .error ⟨400, "book code already registered"⟩ :=
  ⟨rfl, rfl, rfl, rfl, rfl⟩

/-- C7: creating a BookInstance whose physical tag is already
registered on an instance fails with the Conflict error (400, "book
code already registered") and creates nothing; with a globally fresh
tag (and existing book and shelf) it succeeds.  Updating an instance
to a tag held by a different instance fails the same way and modifies
nothing; updating to a globally fresh tag succeeds. -/
theorem instance_tag_uniqueness (db : DB) (d : BookInstanceCreate)
    (iid : Nat) (u : BookInstanceUpdate) :
    ((getBy Book.id d.book_id db.books).isSome →
      (getBy Shelf.id d.shelf_id db.shelves).isSome →
      ((∀ e, db.instances.filter (fun i => i.rfid_tag == d.rfid_tag) = [e] →
          create_book_instance db d = (.error ⟨400, "book code already registered"⟩, db)) ∧
       (db.instances.filter (fun i => i.rfid_tag == d.rfid_tag) = [] →
        ∃ inst, create_book_instance db d =
            (.ok inst, { db with instances := db.instances ++ [inst], nextId := db.nextId + 1 }) ∧
          inst.rfid_tag = d.rfid_tag ∧ inst.book_id = d.book_id ∧
          inst.shelf_id = d.shelf_id ∧ inst.status = d.status))) ∧
    (∀ inst t, getBy BookInstance.id iid db.instances = some inst →
      u.rfid_tag = some t → t ≠ inst.rfid_tag →
      ((∀ e, db.instances.filter (fun i => i.rfid_tag == t) = [e] →
          update_book_instance db iid u = (.error ⟨400, "book code already registered"⟩, db)) ∧
       (db.instances.filter (fun i => i.rfid_tag == t) = [] →
        update_book_instance db iid u =
          (.ok (applyBookInstanceUpdate u inst),
           { db with
             instances := updBy BookInstance.id iid
               (applyBookInstanceUpdate u) db.instances })))) := by
  constructor
  · intro hb hs
    obtain ⟨b, hb⟩ := Option.isSome_iff_exists.mp hb
    obtain ⟨s, hs⟩ := Option.isSome_iff_exists.mp hs
    constructor
    · intro e he
      simp [create_book_instance, hb, hs, he, scalarOneOrNone]
    · intro he
      exact ⟨⟨db.nextId, d.book_id, d.shelf_id, d.shelf_pos, d.rfid_tag, d.status⟩,
        by simp [create_book_instance, hb, hs, he, scalarOneOrNone], rfl, rfl, rfl, rfl⟩
  · intro inst t hinst hu ht
    constructor
    · intro e he
      simp [update_book_instance, hinst, hu, ht, he, scalarOneOrNone]
    · intro he
      simp [update_book_instance, hinst, hu, ht, he, scalarOneOrNone]

/-- C7 witness: on the reachable store `dbInst`, re-registering tag
`T1` fails with the Conflict error and changes nothing, while updating
instance 2 to the fresh tag `T9` succeeds. -/
theorem instance_tag_uniqueness_witness :
    create_book_instance dbInst fixInstCreate =
      (.error ⟨400, "book code already registered"⟩, dbInst) ∧
    update_book_instance dbInst 2 ⟨none, none, some "T9", none, none⟩ =
      (.ok (applyBookInstanceUpdate ⟨none, none, some "T9", none, none⟩
          ⟨2, 0, 1, 0, "T1", .AVAILABLE⟩),
       { dbInst with
         instances := updBy BookInstance.id 2
           (applyBookInstanceUpdate ⟨none, none, some "T9", none, none⟩) dbInst.instances }) := by
  constructor
  · exact ((instance_tag_uniqueness dbInst fixInstCreate 2
        ⟨none, none, some "T9", none, none⟩).1 (by decide) (by decide)).1
      ⟨2, 0, 1, 0, "T1", .AVAILABLE⟩ (by decide)
  · exact ((instance_tag_uniqueness dbInst fixInstCreate 2
        ⟨none, none, some "T9", none, none⟩).2
      ⟨2, 0, 1, 0, "T1", .AVAILABLE⟩ "T9" (by decide) rfl (by decide)).2 (by decide)

/-- C8: on return, the instance's `shelf_id` is updated exactly when a
destination shelf is explicitly given: `POST /return` moves the
instance to the destination shelf and stamps it on the return
transaction, while `POST /return-quick` stamps the instance's
currently recorded shelf on the transaction and modifies no instance
field other than status. -/
theorem return_shelf_frame (db : DB) (tag : String) (dest : Nat) (now : Int)
    (inst : BookInstance) (t0 : Transaction)
    (hi : instByTag db tag = some inst)
    (hb : pendingBorrowsOf db inst.id = [t0]) :
    (∃ tx, (return_book db tag dest now).1 = .ok tx ∧ tx.shelf_id = dest ∧
      (return_book db tag dest now).2.instances =
        updBy BookInstance.id inst.id
          (fun i => { i with status := .AVAILABLE, shelf_id := dest }) db.instances) ∧
    (∃ tx, (return_book_quick db tag now).1 = .ok tx ∧ tx.shelf_id = inst.shelf_id ∧
      (return_book_quick db tag now).2.instances =
        updBy BookInstance.id inst.id
          (fun i => { i with status := .AVAILABLE }) db.instances) := by
  constructor
  · refine ⟨⟨db.nextId, t0.user_id, dest, inst.id, .RETURN, .COMPLETED, now⟩, ?_, rfl, ?_⟩ <;>
      simp [return_book, hi, hb, orderByDateDesc_singleton, scalarOneOrNone]
  · refine ⟨⟨db.nextId, t0.user_id, inst.shelf_id, inst.id, .RETURN, .COMPLETED, now⟩, ?_, rfl, ?_⟩ <;>
      simp [return_book_quick, hi, hb, orderByDateDesc_singleton, scalarOneOrNone]

/-- C8 witness: returning the borrowed copy of the reachable store
`dbBorrowed` without a destination leaves every instance field but the
status unchanged. -/
theorem return_shelf_frame_witness :
    (return_book_quick dbBorrowed "T1" 20).2.instances =
      updBy BookInstance.id 2 (fun i => { i with status := .AVAILABLE }) dbBorrowed.instances := by
  obtain ⟨-, tx, -, -, h⟩ := return_shelf_frame dbBorrowed "T1" 1 20
    ⟨2, 0, 1, 0, "T1", .BORROWED⟩ ⟨3, 7, 1, 2, .BORROW, .PENDING, 5⟩ (by decide) (by decide)
  exact h

/-- C3 (amended): when the first `PENDING` reservation carrying the
code is expired, `POST /reservations/pickup` flips it to `EXPIRED` —
a change persisted although the call fails with 400 "Reservation
expired" — and, provided it was the only `PENDING` reservation with
that code (and reservation keys are unique), a second call with the
same code fails with 404 since the reservation is no longer
`PENDING`. -/
theorem pickup_expired_persists (db : DB) (code : String) (now now2 : Int) (res : Reservation)
    (hnd : (db.reservations.map Reservation.id).Nodup)
    (huniq : pendingWithCode db code = [res])
    (hexp : res.exp_date < now) :
    pickup_reservation db code now =
      (.error ⟨400, "Reservation expired"⟩,
       { db with
         reservations := updBy Reservation.id res.id
           (fun r => { r with status := .EXPIRED }) db.reservations }) ∧
    pickup_reservation
      { db with
        reservations := updBy Reservation.id res.id
          (fun r => { r with status := .EXPIRED }) db.reservations } code now2 =
      (.error ⟨404, "Invalid or expired pickup code"⟩,
       { db with
         reservations := updBy Reservation.id res.id
           (fun r => { r with status := .EXPIRED }) db.reservations }) := by
  have hmem : res ∈ db.reservations := ((filter_singleton_mem huniq).1 : _)
  constructor
  · simp [pickup_reservation, huniq, hexp]
  · have hnone : pendingWithCode
        { db with
          reservations := updBy Reservation.id res.id
            (fun r => { r with status := .EXPIRED }) db.reservations } code = [] := by
      refine List.filter_eq_nil_iff.mpr fun r' hr' hp => ?_
      obtain ⟨x, hx, hcase⟩ := mem_updBy hr'
      rcases hcase with ⟨hid, heq⟩ | ⟨hid, heq⟩
      · have hxres : x = res := List.inj_on_of_nodup_map hnd hx hmem hid
        rw [heq, hxres] at hp
        simp at hp
      · rw [heq] at hp
        have hxf : x ∈ db.reservations.filter fun r =>
            r.pickup_code == code && decide (r.status = .PENDING) :=
          List.mem_filter.mpr ⟨hx, hp⟩
        rw [show db.reservations.filter (fun r =>
            r.pickup_code == code && decide (r.status = .PENDING)) =
            pendingWithCode db code from rfl, huniq] at hxf
        exact hid (by rw [List.mem_singleton.mp hxf])
    simp [pickup_reservation, hnone]

/-- C3 witness: in the reachable store `dbResPast` the single pending
reservation 3 with code `111111` is expired at time 20; the pickup
flips it to `EXPIRED`, fails with 400, and a retry at time 25 fails
with 404. -/
theorem pickup_expired_persists_witness :
    pickup_reservation dbResPast "111111" 20 =
      (.error ⟨400, "Reservation expired"⟩,
       { dbResPast with
         reservations := updBy Reservation.id 3
           (fun r => { r with status := .EXPIRED }) dbResPast.reservations }) ∧
    pickup_reservation
      { dbResPast with
        reservations := updBy Reservation.id 3
          (fun r => { r with status := .EXPIRED }) dbResPast.reservations } "111111" 25 =
      (.error ⟨404, "Invalid or expired pickup code"⟩,
       { dbResPast with
         reservations := updBy Reservation.id 3
           (fun r => { r with status := .EXPIRED }) dbResPast.reservations }) :=
  pickup_expired_persists dbResPast "111111" 20 25
    ⟨3, 7, 2, .PENDING, 10, "111111", none⟩ (by decide) (by decide) (by decide)

/-- C3 counterexample: in the reachable store `dbColl` two `PENDING`
reservations drew the same pickup code `111111` and are both expired
at time 20; the first call flips one and fails with `Expired`, but the
second call with the same code hits the other `PENDING` reservation
and fails with `Expired` again — not with `NotFound` as claimed. -/
theorem pickup_expired_second_call_cex :
    (pickup_reservation dbColl "111111" 20).1 = .error ⟨400, "Reservation expired"⟩ ∧
    (pickup_reservation dbCollE "111111" 20).1 = .error ⟨400, "Reservation expired"⟩ ∧
    (pickup_reservation dbCollE "111111" 20).1 ≠
      .error ⟨404, "Invalid or expired pickup code"⟩ := by
  refine ⟨rfl, rfl, fun h => ?_⟩
  rw [show (pickup_reservation dbCollE "111111" 20).1 =
      .error ⟨400, "Reservation expired"⟩ from rfl] at h
  simp at h

/-- C1 (amended): `POST /borrow` fails with 404 when no instance
carries the tag, with 400 "Book is not available" when the instance is
neither `AVAILABLE` nor `RESERVED`, with 400 "Book is reserved by
another user" when it is `RESERVED` and no `PENDING` reservation on it
belongs to the caller, and with a 500 (`MultipleResultsFound`) when
several such reservations exist; otherwise — instance `AVAILABLE`, or
`RESERVED` with exactly one matching `PENDING` reservation, which is
then marked `COMPLETED` — it appends a Transaction with type `BORROW`,
status `PENDING`, the caller's user id, the instance's id and the
instance's current `shelf_id`, sets the instance's status to
`BORROWED`, and returns that transaction. -/
theorem borrow_book_spec (db : DB) (uid : Nat) (tag : String) (now : Int) :
    (instByTag db tag = none →
      borrow_book db uid tag now = (.error ⟨404, "Book instance not found"⟩, db)) ∧
    (∀ inst, instByTag db tag = some inst →
      ((inst.status ≠ .AVAILABLE → inst.status ≠ .RESERVED →
        borrow_book db uid tag now = (.error ⟨400, "Book is not available"⟩, db)) ∧
       (inst.status = .RESERVED → userPendingRes db inst.id uid = [] →
        borrow_book db uid tag now = (.error ⟨400, "Book is reserved by another user"⟩, db)) ∧
       (inst.status = .RESERVED → 2 ≤ (userPendingRes db inst.id uid).length →
        borrow_book db uid tag now = (.error ⟨500, "Internal Server Error"⟩, db)) ∧
       (∀ res, inst.status = .RESERVED → userPendingRes db inst.id uid = [res] →
        borrow_book db uid tag now =
          (.ok ⟨db.nextId, uid, inst.shelf_id, inst.id, .BORROW, .PENDING, now⟩,
           { db with
             reservations := updBy Reservation.id res.id
               (fun r => { r with status := .COMPLETED }) db.reservations
             instances := updBy BookInstance.id inst.id
               (fun i => { i with status := .BORROWED }) db.instances
             transactions := db.transactions ++
               [⟨db.nextId, uid, inst.shelf_id, inst.id, .BORROW, .PENDING, now⟩]
             nextId := db.nextId + 1 })) ∧
       (inst.status = .AVAILABLE →
        borrow_book db uid tag now =
          (.ok ⟨db.nextId, uid, inst.shelf_id, inst.id, .BORROW, .PENDING, now⟩,
           { db with
             instances := updBy BookInstance.id inst.id
               (fun i => { i with status := .BORROWED }) db.instances
             transactions := db.transactions ++
               [⟨db.nextId, uid, inst.shelf_id, inst.id, .BORROW, .PENDING, now⟩]
             nextId := db.nextId + 1 })))) := by
  refine ⟨fun h => by simp [borrow_book, h], fun inst hi => ⟨?_, ?_, ?_, ?_, ?_⟩⟩
  · intro h1 h2
    simp [borrow_book, hi, h1, h2]
  · intro hs hq
    simp [borrow_book, hi, hs, hq, scalarOneOrNone]
  · intro hs hq
    simp [borrow_book, hi, hs, scalarOneOrNone_error_of_two hq]
  · intro res hs hq
    simp [borrow_book, hi, hs, hq, scalarOneOrNone]
  · intro hs
    simp [borrow_book, hi, hs]

/-- C1 witness: in the reachable store `dbRes`, user 7 borrows the
copy reserved for them: the pending reservation 3 is completed, the
instance becomes `BORROWED` and a pending `BORROW` transaction is
returned. -/
theorem borrow_book_spec_witness :
    borrow_book dbRes 7 "T1" 5 =
      (.ok ⟨4, 7, 1, 2, .BORROW, .PENDING, 5⟩,
       { dbRes with
         reservations := updBy Reservation.id 3
           (fun r => { r with status := .COMPLETED }) dbRes.reservations
         instances := updBy BookInstance.id 2
           (fun i => { i with status := .BORROWED }) dbRes.instances
         transactions := dbRes.transactions ++ [⟨4, 7, 1, 2, .BORROW, .PENDING, 5⟩]
         nextId := dbRes.nextId + 1 }) :=
  ((borrow_book_spec dbRes 7 "T1" 5).2 ⟨2, 0, 1, 0, "T1", .RESERVED⟩
    (by decide)).2.2.2.1 ⟨3, 7, 2, .PENDING, 100, "111111", none⟩ rfl (by decide)

/-- C1 counterexample: the reachable store `dbDupRes` has instance 2
`RESERVED` with two `PENDING` reservations belonging to user 7, so by
the claim the borrow should succeed ("otherwise it creates a
Transaction ... and returns the new transaction"); instead
`scalar_one_or_none` raises and the call fails with a 500, changing
nothing. -/
theorem borrow_book_multiple_pending_cex :
    instByTag dbDupRes "T1" = some ⟨2, 0, 1, 0, "T1", .RESERVED⟩ ∧
    (userPendingRes dbDupRes 2 7).length = 2 ∧
    (borrow_book dbDupRes 7 "T1" 9).1 = .error ⟨500, "Internal Server Error"⟩ ∧
    (borrow_book dbDupRes 7 "T1" 9).2 = dbDupRes :=
  ⟨rfl, rfl, rfl, rfl⟩

/-- C2 (amended): a return on an existing instance fails with 400
"Book was not borrowed" and changes nothing when no `PENDING` `BORROW`
transaction references the instance, and with a 500
(`MultipleResultsFound`) — again changing nothing — when several do;
when exactly one does (necessarily the most recent), both `POST
/return` and `POST /return-quick` mark it `COMPLETED`, append a
Transaction with type `RETURN`, status `COMPLETED`, the borrower's
user id taken from the borrow record, the instance's id and the
destination shelf (the instance's recorded shelf for the quick
variant), set the instance's status to `AVAILABLE`, and return the new
transaction. -/
theorem return_book_spec (db : DB) (tag : String) (dest : Nat) (now : Int)
    (inst : BookInstance) (hi : instByTag db tag = some inst) :
    (pendingBorrowsOf db inst.id = [] →
      return_book db tag dest now = (.error ⟨400, "Book was not borrowed"⟩, db) ∧
      return_book_quick db tag now = (.error ⟨400, "Book was not borrowed"⟩, db)) ∧
    (2 ≤ (pendingBorrowsOf db inst.id).length →
      return_book db tag dest now = (.error ⟨500, "Internal Server Error"⟩, db) ∧
      return_book_quick db tag now = (.error ⟨500, "Internal Server Error"⟩, db)) ∧
    (∀ t0, pendingBorrowsOf db inst.id = [t0] →
      return_book db tag dest now =
        (.ok ⟨db.nextId, t0.user_id, dest, inst.id, .RETURN, .COMPLETED, now⟩,
         { db with
           transactions := updBy Transaction.id t0.id
               (fun t => { t with status := .COMPLETED }) db.transactions ++
             [⟨db.nextId, t0.user_id, dest, inst.id, .RETURN, .COMPLETED, now⟩]
           instances := updBy BookInstance.id inst.id
             (fun i => { i with status := .AVAILABLE, shelf_id := dest }) db.instances
           nextId := db.nextId + 1 }) ∧
      return_book_quick db tag now =
        (.ok ⟨db.nextId, t0.user_id, inst.shelf_id, inst.id, .RETURN, .COMPLETED, now⟩,
         { db with
           transactions := updBy Transaction.id t0.id
               (fun t => { t with status := .COMPLETED }) db.transactions ++
             [⟨db.nextId, t0.user_id, inst.shelf_id, inst.id, .RETURN, .COMPLETED, now⟩]
           instances := updBy BookInstance.id inst.id
             (fun i => { i with status := .AVAILABLE }) db.instances
           nextId := db.nextId + 1 })) := by
  refine ⟨?_, ?_, ?_⟩
  · intro h
    constructor <;> simp [return_book, return_book_quick, hi, h, orderByDateDesc, scalarOneOrNone]
  · intro h
    have h2 : 2 ≤ (orderByDateDesc (pendingBorrowsOf db inst.id)).length := by
      rw [length_orderByDateDesc]; exact h
    constructor <;>
      simp [return_book, return_book_quick, hi, scalarOneOrNone_error_of_two h2]
  · intro t0 h
    constructor <;>
      simp [return_book, return_book_quick, hi, h, orderByDateDesc_singleton, scalarOneOrNone]

/-- C2 witness: returning the single open borrow of the reachable
store `dbBorrowed` to shelf 1 completes the borrow transaction 3,
appends the completed return transaction and makes instance 2
available again. -/
theorem return_book_spec_witness :
    return_book dbBorrowed "T1" 1 20 =
      (.ok ⟨4, 7, 1, 2, .RETURN, .COMPLETED, 20⟩,
       { dbBorrowed with
         transactions := updBy Transaction.id 3
             (fun t => { t with status := .COMPLETED }) dbBorrowed.transactions ++
           [⟨4, 7, 1, 2, .RETURN, .COMPLETED, 20⟩]
         instances := updBy BookInstance.id 2
           (fun i => { i with status := .AVAILABLE, shelf_id := 1 }) dbBorrowed.instances
         nextId := dbBorrowed.nextId + 1 }) ∧
    return_book_quick dbBorrowed "T1" 20 =
      (.ok ⟨4, 7, 1, 2, .RETURN, .COMPLETED, 20⟩,
       { dbBorrowed with
         transactions := updBy Transaction.id 3
             (fun t => { t with status := .COMPLETED }) dbBorrowed.transactions ++
           [⟨4, 7, 1, 2, .RETURN, .COMPLETED, 20⟩]
         instances := updBy BookInstance.id 2
           (fun i => { i with status := .AVAILABLE }) dbBorrowed.instances
         nextId := dbBorrowed.nextId + 1 }) :=
  (return_book_spec dbBorrowed "T1" 1 20 ⟨2, 0, 1, 0, "T1", .BORROWED⟩ (by decide)).2.2
    ⟨3, 7, 1, 2, .BORROW, .PENDING, 5⟩ (by decide)

/-- C2 counterexample: the reachable store `dbTwoBorrow` holds two
`PENDING` `BORROW` transactions on instance 2 (dates 5 and 9); by the
claim the return should complete the most recent one (id 4, date 9)
and succeed, but `order_by(desc(date))` feeds two rows to
`scalar_one_or_none`, which raises: the call fails with a 500 and
changes nothing. -/
theorem return_book_multiple_pending_cex :
    (pendingBorrowsOf dbTwoBorrow 2).length = 2 ∧
    (return_book dbTwoBorrow "T1" 1 20).1 = .error ⟨500, "Internal Server Error"⟩ ∧
    (return_book dbTwoBorrow "T1" 1 20).2 = dbTwoBorrow ∧
    (return_book_quick dbTwoBorrow "T1" 20).1 = .error ⟨500, "Internal Server Error"⟩ ∧
    (return_book_quick dbTwoBorrow "T1" 20).2 = dbTwoBorrow :=
  ⟨rfl, rfl, rfl, rfl, rfl⟩

theorem countP_updBy_congr (key : α → Nat) (k : Nat) (f : α → α) (p : α → Bool)
    (h : ∀ x, p (f x) = p x) : ∀ l : List α, (updBy key k f l).countP p = l.countP p
  | [] => rfl
  | a :: l => by
    simp only [updBy, List.map_cons, List.countP_cons]
    rw [show List.map (fun x => if key x = k then f x else x) l = updBy key k f l from rfl,
      countP_updBy_congr key k f p h l]
    by_cases hk : key a = k <;> simp [hk, h]

theorem nodup_append_singleton {l : List Nat} {n : Nat} (hnd : l.Nodup)
    (h : ∀ x ∈ l, x < n) : (l ++ [n]).Nodup := by
  rw [List.nodup_append]
  refine ⟨hnd, List.nodup_singleton n, fun x hx hy => ?_⟩
  rw [List.mem_singleton] at hy
  subst hy
  exact absurd (h x hx) (lt_irrefl x)

theorem forall_key_lt_updBy (key : α → Nat) (k : Nat) (f : α → α) {n : Nat} {l : List α}
    (hf : ∀ x, key (f x) = key x) (h : ∀ x ∈ l, key x < n) :
    ∀ y ∈ updBy key k f l, key y < n := by
  intro y hy
  obtain ⟨x, hx, hc⟩ := mem_updBy hy
  rcases hc with ⟨-, heq⟩ | ⟨-, heq⟩
  · rw [heq, hf]; exact h x hx
  · rw [heq]; exact h x hx

theorem mem_delBy {key : α → Nat} {k : Nat} {l : List α} {y : α}
    (hy : y ∈ delBy key k l) : y ∈ l :=
  (List.mem_filter.mp hy).1

theorem nodup_map_delBy {key : α → Nat} {k : Nat} {l : List α}
    (h : (l.map key).Nodup) : ((delBy key k l).map key).Nodup :=
  ((List.filter_sublist l).map key).nodup h

/-- Completing one `PENDING` reservation of instance `inst` while
setting `inst` to `BORROWED` preserves the strengthened invariant:
this is the successful borrow and the successful pickup step. -/
theorem inv_step_complete_pending (db : DB) (hInv : Inv db) (res : Reservation)
    (inst : BookInstance) (txs : List Transaction) (n : Nat)
    (hmem : res ∈ db.reservations) (hinstm : inst ∈ db.instances)
    (hrp : res.status = .PENDING) (hrb : res.book_instance_id = inst.id)
    (hn : db.nextId ≤ n) :
    Inv { db with
      reservations := updBy Reservation.id res.id
        (fun r => { r with status := .COMPLETED }) db.reservations
      instances := updBy BookInstance.id inst.id
        (fun i => { i with status := .BORROWED }) db.instances
      transactions := txs
      nextId := n } := by
  obtain ⟨⟨hndI, hndR, hltI, hltR⟩, hAMO, hSRI⟩ := hInv
  have hcount : ∀ j : Nat,
      pendingCount (updBy Reservation.id res.id
          (fun r => { r with status := .COMPLETED }) db.reservations) j
        + (if res.book_instance_id = j then 1 else 0)
        = pendingCount db.reservations j := by
    intro j
    have hk := countP_updBy_mem Reservation.id res.id
      (fun r => { r with status := .COMPLETED })
      (fun r => r.book_instance_id == j && decide (r.status = .PENDING))
      hndR hmem rfl
    by_cases hj : res.book_instance_id = j
    · simpa [pendingCount, hj, hrp] using hk
    · simpa [pendingCount, hj, hrp] using hk
  have hc1 : pendingCount db.reservations inst.id = 1 := by
    have hpos : 0 < pendingCount db.reservations inst.id :=
      List.countP_pos_iff.mpr ⟨res, hmem, by simp [hrb, hrp]⟩
    have := hAMO inst hinstm
    omega
  refine ⟨⟨?_, ?_, ?_, ?_⟩, ?_, ?_⟩
  · show (List.map BookInstance.id (updBy BookInstance.id inst.id
      (fun i => { i with status := .BORROWED }) db.instances)).Nodup
    rw [map_key_updBy BookInstance.id inst.id
      (fun i => { i with status := .BORROWED }) db.instances (fun _ => rfl)]
    exact hndI
  · show (List.map Reservation.id (updBy Reservation.id res.id
      (fun r => { r with status := .COMPLETED }) db.reservations)).Nodup
    rw [map_key_updBy Reservation.id res.id
      (fun r => { r with status := .COMPLETED }) db.reservations (fun _ => rfl)]
    exact hndR
  · intro i hi
    have hi' : i ∈ updBy BookInstance.id inst.id
        (fun i => { i with status := .BORROWED }) db.instances := hi
    exact lt_of_lt_of_le
      (forall_key_lt_updBy BookInstance.id inst.id
        (fun i => { i with status := .BORROWED }) (fun _ => rfl) hltI i hi') hn
  · intro r hr
    have hr' : r ∈ updBy Reservation.id res.id
        (fun r => { r with status := .COMPLETED }) db.reservations := hr
    exact lt_of_lt_of_le
      (forall_key_lt_updBy Reservation.id res.id
        (fun r => { r with status := .COMPLETED }) (fun _ => rfl) hltR r hr') hn
  · intro i' hi'
    have hi2 : i' ∈ updBy BookInstance.id inst.id
        (fun i => { i with status := .BORROWED }) db.instances := hi'
    obtain ⟨x, hx, hc⟩ := mem_updBy hi2
    have hid : i'.id = x.id := by
      rcases hc with ⟨-, heq⟩ | ⟨-, heq⟩ <;> rw [heq]
    show pendingCount (updBy Reservation.id res.id
      (fun r => { r with status := .COMPLETED }) db.reservations) i'.id ≤ 1
    have hle := hcount x.id
    have := hAMO x hx
    rw [hid]
    omega
  · intro i' hi'
    have hi2 : i' ∈ updBy BookInstance.id inst.id
        (fun i => { i with status := .BORROWED }) db.instances := hi'
    obtain ⟨x, hx, hc⟩ := mem_updBy hi2
    show i'.status = .RESERVED ↔ pendingCount (updBy Reservation.id res.id
      (fun r => { r with status := .COMPLETED }) db.reservations) i'.id = 1
    rcases hc with ⟨hk, heq⟩ | ⟨hk, heq⟩
    · have hxi : x = inst := List.inj_on_of_nodup_map hndI hx hinstm hk
      have hnew : pendingCount (updBy Reservation.id res.id
          (fun r => { r with status := .COMPLETED }) db.reservations) inst.id = 0 := by
        have hc := hcount inst.id
        rw [if_pos hrb] at hc
        omega
      rw [heq, hxi]
      simp [hnew]
    · have hne : res.book_instance_id ≠ x.id := fun hcon => hk (by rw [← hcon]; exact hrb)
      have hnew : pendingCount (updBy Reservation.id res.id
          (fun r => { r with status := .COMPLETED }) db.reservations) x.id =
          pendingCount db.reservations x.id := by
        have hc := hcount x.id
        rw [if_neg hne] at hc
        omega
      rw [heq, hnew]
      exact hSRI x hx

/-- Borrowing an `AVAILABLE` instance (no reservation involved)
preserves the strengthened invariant. -/
theorem inv_step_borrow_available (db : DB) (hInv : Inv db) (inst : BookInstance)
    (txs : List Transaction) (n : Nat)
    (hinstm : inst ∈ db.instances) (hav : inst.status = .AVAILABLE)
    (hn : db.nextId ≤ n) :
    Inv { db with
      instances := updBy BookInstance.id inst.id
        (fun i => { i with status := .BORROWED }) db.instances
      transactions := txs
      nextId := n } := by
  obtain ⟨⟨hndI, hndR, hltI, hltR⟩, hAMO, hSRI⟩ := hInv
  have hc0 : pendingCount db.reservations inst.id = 0 := by
    have h1 := hAMO inst hinstm
    have h2 : ¬ pendingCount db.reservations inst.id = 1 := fun hc => by
      have := (hSRI inst hinstm).mpr hc
      rw [hav] at this
      exact absurd this (by decide)
    omega
  refine ⟨⟨?_, hndR, ?_, ?_⟩, ?_, ?_⟩
  · show (List.map BookInstance.id (updBy BookInstance.id inst.id
      (fun i => { i with status := .BORROWED }) db.instances)).Nodup
    rw [map_key_updBy BookInstance.id inst.id
      (fun i => { i with status := .BORROWED }) db.instances (fun _ => rfl)]
    exact hndI
  · intro i hi
    have hi' : i ∈ updBy BookInstance.id inst.id
        (fun i => { i with status := .BORROWED }) db.instances := hi
    exact lt_of_lt_of_le
      (forall_key_lt_updBy BookInstance.id inst.id
        (fun i => { i with status := .BORROWED }) (fun _ => rfl) hltI i hi') hn
  · exact fun r hr => lt_of_lt_of_le (hltR r hr) hn
  · intro i' hi'
    have hi2 : i' ∈ updBy BookInstance.id inst.id
        (fun i => { i with status := .BORROWED }) db.instances := hi'
    obtain ⟨x, hx, hc⟩ := mem_updBy hi2
    have hid : i'.id = x.id := by
      rcases hc with ⟨-, heq⟩ | ⟨-, heq⟩ <;> rw [heq]
    show pendingCount db.reservations i'.id ≤ 1
    rw [hid]
    exact hAMO x hx
  · intro i' hi'
    have hi2 : i' ∈ updBy BookInstance.id inst.id
        (fun i => { i with status := .BORROWED }) db.instances := hi'
    obtain ⟨x, hx, hc⟩ := mem_updBy hi2
    show i'.status = .RESERVED ↔ pendingCount db.reservations i'.id = 1
    rcases hc with ⟨hk, heq⟩ | ⟨hk, heq⟩
    · have hxi : x = inst := List.inj_on_of_nodup_map hndI hx hinstm hk
      rw [heq, hxi]
      simp [hc0]
    · rw [heq]
      exact hSRI x hx

/-- Creating a `PENDING` reservation on an `AVAILABLE` instance while
flipping it to `RESERVED` preserves the strengthened invariant. -/
theorem inv_step_reserve (db : DB) (hInv : Inv db) (inst : BookInstance) (r0 : Reservation)
    (hinstm : inst ∈ db.instances) (hav : inst.status = .AVAILABLE)
    (hid : r0.id = db.nextId) (hbi : r0.book_instance_id = inst.id)
    (hst : r0.status = .PENDING) :
    Inv { db with
      reservations := db.reservations ++ [r0]
      instances := updBy BookInstance.id inst.id
        (fun i => { i with status := .RESERVED }) db.instances
      nextId := db.nextId + 1 } := by
  obtain ⟨⟨hndI, hndR, hltI, hltR⟩, hAMO, hSRI⟩ := hInv
  have hc0 : pendingCount db.reservations inst.id = 0 := by
    have h1 := hAMO inst hinstm
    have h2 : ¬ pendingCount db.reservations inst.id = 1 := fun hc => by
      have := (hSRI inst hinstm).mpr hc
      rw [hav] at this
      exact absurd this (by decide)
    omega
  have hcnt : ∀ j : Nat, pendingCount (db.reservations ++ [r0]) j =
      pendingCount db.reservations j + (if r0.book_instance_id = j then 1 else 0) := by
    intro j
    by_cases hj : r0.book_instance_id = j <;>
      simp [pendingCount, List.countP_append, List.countP_cons, hst, hj]
  refine ⟨⟨?_, ?_, ?_, ?_⟩, ?_, ?_⟩
  · show (List.map BookInstance.id (updBy BookInstance.id inst.id
      (fun i => { i with status := .RESERVED }) db.instances)).Nodup
    rw [map_key_updBy BookInstance.id inst.id
      (fun i => { i with status := .RESERVED }) db.instances (fun _ => rfl)]
    exact hndI
  · show (List.map Reservation.id (db.reservations ++ [r0])).Nodup
    rw [List.map_append, show List.map Reservation.id [r0] = [db.nextId] by simp [hid]]
    refine nodup_append_singleton hndR fun x hx => ?_
    obtain ⟨r, hr, hrx⟩ := List.mem_map.mp hx
    rw [← hrx]
    exact hltR r hr
  · intro i hi
    have hi' : i ∈ updBy BookInstance.id inst.id
        (fun i => { i with status := .RESERVED }) db.instances := hi
    exact lt_of_lt_of_le
      (forall_key_lt_updBy BookInstance.id inst.id
        (fun i => { i with status := .RESERVED }) (fun _ => rfl) hltI i hi') (Nat.le_succ _)
  · intro r hr
    have hr' : r ∈ db.reservations ++ [r0] := hr
    rcases List.mem_append.mp hr' with h | h
    · exact lt_of_lt_of_le (hltR r h) (Nat.le_succ _)
    · rw [List.mem_singleton.mp h, hid]
      exact Nat.lt_succ_self _
  · intro i' hi'
    have hi2 : i' ∈ updBy BookInstance.id inst.id
        (fun i => { i with status := .RESERVED }) db.instances := hi'
    obtain ⟨x, hx, hc⟩ := mem_updBy hi2
    have hidq : i'.id = x.id := by
      rcases hc with ⟨-, heq⟩ | ⟨-, heq⟩ <;> rw [heq]
    show pendingCount (db.reservations ++ [r0]) i'.id ≤ 1
    rw [hidq, hcnt x.id]
    by_cases hj : x.id = inst.id
    · have hxi : x = inst := List.inj_on_of_nodup_map hndI hx hinstm hj
      rw [hxi, if_pos hbi, hc0]
    · rw [if_neg (fun hcon : r0.book_instance_id = x.id => hj (by rw [← hcon]; exact hbi))]
      have := hAMO x hx
      omega
  · intro i' hi'
    have hi2 : i' ∈ updBy BookInstance.id inst.id
        (fun i => { i with status := .RESERVED }) db.instances := hi'
    obtain ⟨x, hx, hc⟩ := mem_updBy hi2
    show i'.status = .RESERVED ↔ pendingCount (db.reservations ++ [r0]) i'.id = 1
    rcases hc with ⟨hk, heq⟩ | ⟨hk, heq⟩
    · have hxi : x = inst := List.inj_on_of_nodup_map hndI hx hinstm hk
      rw [heq, hxi]
      have : pendingCount (db.reservations ++ [r0]) inst.id = 1 := by
        rw [hcnt inst.id, if_pos hbi, hc0]
      simp [this]
    · rw [heq, hcnt x.id,
        if_neg (fun hcon : r0.book_instance_id = x.id => hk (by rw [← hcon]; exact hbi))]
      simpa using hSRI x hx

/-- Attaching the QR image URL to a committed reservation touches
neither statuses nor references, so it preserves the strengthened
invariant. -/
theorem inv_update_qr (db : DB) (hInv : Inv db) (rid : Nat) (url : String) :
    Inv { db with
      reservations := updBy Reservation.id rid
        (fun r => { r with qr_code_url := some url }) db.reservations } := by
  obtain ⟨⟨hndI, hndR, hltI, hltR⟩, hAMO, hSRI⟩ := hInv
  have hcnt : ∀ j : Nat, pendingCount (updBy Reservation.id rid
      (fun r => { r with qr_code_url := some url }) db.reservations) j =
      pendingCount db.reservations j := fun j =>
    countP_updBy_congr Reservation.id rid
      (fun r => { r with qr_code_url := some url })
      (fun r => r.book_instance_id == j && decide (r.status = .PENDING))
      (fun _ => rfl) db.reservations
  refine ⟨⟨hndI, ?_, hltI, ?_⟩, ?_, ?_⟩
  · show (List.map Reservation.id (updBy Reservation.id rid
      (fun r => { r with qr_code_url := some url }) db.reservations)).Nodup
    rw [map_key_updBy Reservation.id rid
      (fun r => { r with qr_code_url := some url }) db.reservations (fun _ => rfl)]
    exact hndR
  · intro r hr
    have hr' : r ∈ updBy Reservation.id rid
        (fun r => { r with qr_code_url := some url }) db.reservations := hr
    exact forall_key_lt_updBy Reservation.id rid
      (fun r => { r with qr_code_url := some url }) (fun _ => rfl) hltR r hr'
  · intro i hi
    have hi' : i ∈ db.instances := hi
    show pendingCount (updBy Reservation.id rid
      (fun r => { r with qr_code_url := some url }) db.reservations) i.id ≤ 1
    rw [hcnt]
    exact hAMO i hi'
  · intro i hi
    have hi' : i ∈ db.instances := hi
    show i.status = .RESERVED ↔ pendingCount (updBy Reservation.id rid
      (fun r => { r with qr_code_url := some url }) db.reservations) i.id = 1
    rw [hcnt]
    exact hSRI i hi'

/-- Deleting a reservation that is not a `PENDING` claim on any stored
instance leaves every pending count unchanged. -/
theorem inv_step_delete_frame (db : DB) (hInv : Inv db) (r : Reservation)
    (hmem : r ∈ db.reservations)
    (hnop : ∀ i ∈ db.instances, ¬(r.book_instance_id = i.id ∧ r.status = .PENDING)) :
    Inv { db with
      instances := db.instances
      reservations := delBy Reservation.id r.id db.reservations } := by
  obtain ⟨⟨hndI, hndR, hltI, hltR⟩, hAMO, hSRI⟩ := hInv
  have hcnt : ∀ i ∈ db.instances,
      pendingCount (delBy Reservation.id r.id db.reservations) i.id =
        pendingCount db.reservations i.id := by
    intro i hi
    have hk := countP_delBy_mem Reservation.id r.id
      (fun x => x.book_instance_id == i.id && decide (x.status = .PENDING)) hndR hmem rfl
    by_cases h1 : r.book_instance_id = i.id
    · by_cases h2 : r.status = .PENDING
      · exact absurd ⟨h1, h2⟩ (hnop i hi)
      · simpa [pendingCount, h1, h2] using hk
    · simpa [pendingCount, h1] using hk
  refine ⟨⟨hndI, nodup_map_delBy hndR, hltI, ?_⟩, ?_, ?_⟩
  · intro x hx
    exact hltR x (mem_delBy hx)
  · intro i hi
    have hi' : i ∈ db.instances := hi
    show pendingCount (delBy Reservation.id r.id db.reservations) i.id ≤ 1
    rw [hcnt i hi']
    exact hAMO i hi'
  · intro i hi
    have hi' : i ∈ db.instances := hi
    show i.status = .RESERVED ↔
      pendingCount (delBy Reservation.id r.id db.reservations) i.id = 1
    rw [hcnt i hi']
    exact hSRI i hi'

/-- Deleting the `PENDING` reservation of a `RESERVED` instance while
reverting the instance to `AVAILABLE` preserves the strengthened
invariant: this is the cancel step. -/
theorem inv_step_delete_pending (db : DB) (hInv : Inv db) (r : Reservation) (i0 : BookInstance)
    (hmem : r ∈ db.reservations) (hi0 : i0 ∈ db.instances)
    (hp : r.status = .PENDING) (hbi : r.book_instance_id = i0.id) :
    Inv { db with
      instances := updBy BookInstance.id i0.id
        (fun i => { i with status := .AVAILABLE }) db.instances
      reservations := delBy Reservation.id r.id db.reservations } := by
  obtain ⟨⟨hndI, hndR, hltI, hltR⟩, hAMO, hSRI⟩ := hInv
  have hcount : ∀ j : Nat,
      pendingCount (delBy Reservation.id r.id db.reservations) j
        + (if r.book_instance_id = j then 1 else 0) = pendingCount db.reservations j := by
    intro j
    have hk := countP_delBy_mem Reservation.id r.id
      (fun x => x.book_instance_id == j && decide (x.status = .PENDING)) hndR hmem rfl
    by_cases hj : r.book_instance_id = j
    · simpa [pendingCount, hj, hp] using hk
    · simpa [pendingCount, hj] using hk
  refine ⟨⟨?_, nodup_map_delBy hndR, ?_, ?_⟩, ?_, ?_⟩
  · show (List.map BookInstance.id (updBy BookInstance.id i0.id
      (fun i => { i with status := .AVAILABLE }) db.instances)).Nodup
    rw [map_key_updBy BookInstance.id i0.id
      (fun i => { i with status := .AVAILABLE }) db.instances (fun _ => rfl)]
    exact hndI
  · intro i hi
    have hi' : i ∈ updBy BookInstance.id i0.id
        (fun i => { i with status := .AVAILABLE }) db.instances := hi
    exact forall_key_lt_updBy BookInstance.id i0.id
      (fun i => { i with status := .AVAILABLE }) (fun _ => rfl) hltI i hi'
  · intro x hx
    exact hltR x (mem_delBy hx)
  · intro i' hi'
    have hi2 : i' ∈ updBy BookInstance.id i0.id
        (fun i => { i with status := .AVAILABLE }) db.instances := hi'
    obtain ⟨x, hx, hc⟩ := mem_updBy hi2
    have hidq : i'.id = x.id := by
      rcases hc with ⟨-, heq⟩ | ⟨-, heq⟩ <;> rw [heq]
    show pendingCount (delBy Reservation.id r.id db.reservations) i'.id ≤ 1
    have hle := hcount x.id
    have := hAMO x hx
    rw [hidq]
    omega
  · intro i' hi'
    have hi2 : i' ∈ updBy BookInstance.id i0.id
        (fun i => { i with status := .AVAILABLE }) db.instances := hi'
    obtain ⟨x, hx, hc⟩ := mem_updBy hi2
    show i'.status = .RESERVED ↔
      pendingCount (delBy Reservation.id r.id db.reservations) i'.id = 1
    rcases hc with ⟨hk, heq⟩ | ⟨hk, heq⟩
    · have hxi : x = i0 := List.inj_on_of_nodup_map hndI hx hi0 hk
      have hnew : pendingCount (delBy Reservation.id r.id db.reservations) i0.id = 0 := by
        have hc1 : pendingCount db.reservations i0.id = 1 := by
          have hpos : 0 < pendingCount db.reservations i0.id :=
            List.countP_pos_iff.mpr ⟨r, hmem, by simp [hbi, hp]⟩
          have := hAMO i0 hi0
          omega
        have hc := hcount i0.id
        rw [if_pos hbi] at hc
        omega
      rw [heq, hxi]
      simp [hnew]
    · have hne : r.book_instance_id ≠ x.id := fun hcon => hk (by rw [← hcon]; exact hbi)
      have hnew : pendingCount (delBy Reservation.id r.id db.reservations) x.id =
          pendingCount db.reservations x.id := by
        have hc := hcount x.id
        rw [if_neg hne] at hc
        omega
      rw [heq, hnew]
      exact hSRI x hx

/-- Reserve preserves the strengthened invariant, for any random code
and any QR-upload outcome. -/
theorem inv_create_reservation (db : DB) (hInv : Inv db) (d : ReservationCreate)
    (digits : Fin 6 → Fin 10) (qr : Option String) :
    Inv (create_reservation db d digits qr).2 := by
  rcases hgb : getBy BookInstance.id d.book_instance_id db.instances with - | inst
  · simpa [create_reservation, hgb] using hInv
  · obtain ⟨hinstm, hkey⟩ := getBy_mem hgb
    by_cases hav : inst.status = .AVAILABLE
    · have hInv1 : Inv { db with
          reservations := db.reservations ++
            [⟨db.nextId, d.user_id, d.book_instance_id, .PENDING, d.exp_date,
              genPickupCode digits, none⟩]
          instances := updBy BookInstance.id inst.id
            (fun i => { i with status := .RESERVED }) db.instances
          nextId := db.nextId + 1 } :=
        inv_step_reserve db hInv inst _ hinstm hav rfl hkey.symm rfl
      rcases qr with - | url
      · simpa [create_reservation, hgb, hav] using hInv1
      · have hInv2 := inv_update_qr _ hInv1 db.nextId url
        simpa [create_reservation, hgb, hav] using hInv2
    · simpa [create_reservation, hgb, hav] using hInv

/-- Borrow preserves the strengthened invariant in every branch. -/
theorem inv_borrow_book (db : DB) (hInv : Inv db) (uid : Nat) (tag : String) (now : Int) :
    Inv (borrow_book db uid tag now).2 := by
  rcases hi : instByTag db tag with - | inst
  · simpa [borrow_book, hi] using hInv
  · have hinstm : inst ∈ db.instances := List.mem_of_find?_eq_some hi
    by_cases hcond : inst.status ≠ .AVAILABLE ∧ inst.status ≠ .RESERVED
    · simpa [borrow_book, hi, hcond] using hInv
    · by_cases hres : inst.status = .RESERVED
      · rcases hq : scalarOneOrNone (userPendingRes db inst.id uid) with e | o
        · simpa [borrow_book, hi, hcond, hres, hq] using hInv
        · rcases o with - | res
          · simpa [borrow_book, hi, hcond, hres, hq] using hInv
          · have huniq : (userPendingRes db inst.id uid) = [res] := scalarOneOrNone_ok_some hq
            have hmem : res ∈ db.reservations := (filter_singleton_mem huniq).1
            have hpred := (filter_singleton_mem huniq).2
            simp only [Bool.and_eq_true, beq_iff_eq, decide_eq_true_eq] at hpred
            obtain ⟨⟨hrb, hrp⟩, -⟩ := hpred
            have := inv_step_complete_pending db hInv res inst
              (db.transactions ++
                [⟨db.nextId, uid, inst.shelf_id, inst.id, .BORROW, .PENDING, now⟩])
              (db.nextId + 1) hmem hinstm hrp hrb (Nat.le_succ _)
            simpa [borrow_book, hi, hcond, hres, hq] using this
      · have hav : inst.status = .AVAILABLE := by
          by_contra h
          exact hcond ⟨h, hres⟩
        have := inv_step_borrow_available db hInv inst
          (db.transactions ++
            [⟨db.nextId, uid, inst.shelf_id, inst.id, .BORROW, .PENDING, now⟩])
          (db.nextId + 1) hinstm hav (Nat.le_succ _)
        simpa [borrow_book, hi, hcond, hres, hav] using this

/-- Cancel preserves the strengthened invariant in every branch. -/
theorem inv_delete_reservation (db : DB) (hInv : Inv db) (rid : Nat) :
    Inv (delete_reservation db rid).2 := by
  rcases hr : getBy Reservation.id rid db.reservations with - | r
  · simpa [delete_reservation, hr] using hInv
  · obtain ⟨hmem, hkey⟩ := getBy_mem hr
    by_cases hp : r.status = .PENDING
    · rcases hgi : getBy BookInstance.id r.book_instance_id db.instances with - | i0
      · have hnop : ∀ i ∈ db.instances,
            ¬(r.book_instance_id = i.id ∧ r.status = .PENDING) := by
          intro i hi hcon
          exact getBy_none hgi i hi hcon.1.symm
        have := inv_step_delete_frame db hInv r hmem hnop
        simpa [delete_reservation, hr, hp, hgi, hkey] using this
      · obtain ⟨hi0m, hkey0⟩ := getBy_mem hgi
        by_cases hst : i0.status = .RESERVED
        · have := inv_step_delete_pending db hInv r i0 hmem hi0m hp hkey0.symm
          simpa [delete_reservation, hr, hp, hgi, hst, hkey] using this
        · exfalso
          obtain ⟨-, hAMO, hSRI⟩ := hInv
          have hpos : 0 < pendingCount db.reservations i0.id :=
            List.countP_pos_iff.mpr ⟨r, hmem, by simp [hkey0.symm, hp]⟩
          have h1 := hAMO i0 hi0m
          have hc1 : pendingCount db.reservations i0.id = 1 := by omega
          exact hst ((hSRI i0 hi0m).mpr hc1)
    · have hnop : ∀ i ∈ db.instances,
          ¬(r.book_instance_id = i.id ∧ r.status = .PENDING) :=
        fun i hi hcon => hp hcon.2
      have := inv_step_delete_frame db hInv r hmem hnop
      simpa [delete_reservation, hr, hp, hkey] using this

/-- Pickup preserves the strengthened invariant on every path except
the expired flip. -/
theorem inv_pickup_reservation (db : DB) (hInv : Inv db) (code : String) (now : Int)
    (hne : (pickup_reservation db code now).1 ≠ .error ⟨400, "Reservation expired"⟩) :
    Inv (pickup_reservation db code now).2 := by
  rcases hh : (pendingWithCode db code).head? with - | res
  · simpa [pickup_reservation, hh] using hInv
  · have hresf : res ∈ pendingWithCode db code :=
      List.mem_of_mem_head? (by rw [hh]; rfl)
    have hmem : res ∈ db.reservations := (List.mem_filter.mp hresf).1
    have hpred := (List.mem_filter.mp hresf).2
    simp only [Bool.and_eq_true, beq_iff_eq, decide_eq_true_eq] at hpred
    obtain ⟨-, hrp⟩ := hpred
    by_cases hexp : res.exp_date < now
    · exact absurd (by simp [pickup_reservation, hh, hexp]) hne
    · rcases hgi : getBy BookInstance.id res.book_instance_id db.instances with - | inst
      · simpa [pickup_reservation, hh, hexp, hgi] using hInv
      · obtain ⟨hinstm, hkey⟩ := getBy_mem hgi
        have := inv_step_complete_pending db hInv res inst
          (db.transactions ++
            [⟨db.nextId, res.user_id, inst.shelf_id, res.book_instance_id,
              .BORROW, .PENDING, now⟩])
          (db.nextId + 1) hmem hinstm hrp hkey.symm (Nat.le_succ _)
        simpa [pickup_reservation, hh, hexp, hgi] using this

/-- C4 (amended): the biconditional "status `RESERVED` iff exactly one
`PENDING` reservation references the instance" is preserved by
reserve, borrow, cancel and in-time pickup — stated as preservation of
`Inv`, its inductive strengthening by unique row keys and
at-most-one-pending — but it is not an invariant of the whole system:
the expired-pickup flip and the unguarded reservation/instance update
endpoints can break it. -/
theorem circulation_preserves_reserved_inv (db : DB) (hInv : Inv db) :
    (∀ d digits qr, Inv (create_reservation db d digits qr).2) ∧
    (∀ uid tag now, Inv (borrow_book db uid tag now).2) ∧
    (∀ rid, Inv (delete_reservation db rid).2) ∧
    (∀ code now, (pickup_reservation db code now).1 ≠ .error ⟨400, "Reservation expired"⟩ →
      Inv (pickup_reservation db code now).2) :=
  ⟨fun d digits qr => inv_create_reservation db hInv d digits qr,
   fun uid tag now => inv_borrow_book db hInv uid tag now,
   fun rid => inv_delete_reservation db hInv rid,
   fun code now hne => inv_pickup_reservation db hInv code now hne⟩

/-- C4 witness: the reachable store `dbRes` satisfies the strengthened
invariant, and so does the store after user 7 borrows their reserved
copy. -/
theorem circulation_preserves_reserved_inv_witness :
    Inv dbRes ∧ Inv (borrow_book dbRes 7 "T1" 5).2 :=
  ⟨by decide, (circulation_preserves_reserved_inv dbRes (by decide)).2.1 7 "T1" 5⟩

/-- C4 counterexample: the reachable store `dbRes` satisfies the
claimed biconditional, but `PUT /reservations/3` cancelling the
pending reservation leaves instance 2 `RESERVED` with no `PENDING`
reservation; likewise the expired-pickup flip on the reachable store
`dbResPast` leaves its instance `RESERVED` with no `PENDING`
reservation.  Reservation updates and expired pickups are operations
of the system, so the biconditional does not hold over all reachable
states. -/
theorem reserved_inv_not_preserved_cex :
    SpecReservedInv dbRes ∧
    ¬ SpecReservedInv (update_reservation dbRes 3 ⟨some .CANCELLED, none⟩).2 ∧
    SpecReservedInv dbResPast ∧
    ¬ SpecReservedInv (pickup_reservation dbResPast "111111" 20).2 :=
  ⟨by decide, by decide, by decide, by decide⟩

end ShelfBackend
